import Mathlib

/-
Verification development for the wdfront repository core.

It embeds, shallowly:
  - the intent and turn wire schemas from src/core/Schemas.ts,
  - the client world view from GameView.ts (unit reconciliation, the
    grace window for deactivated units, small-id resolution, hasPlayer,
    and the missile readiness fraction),
  - the spatial unit index query surface (UnitGrid; its implementation
    is not part of the sources, only its tests and callers, so it is
    modelled from the specification),
  - the interceptor engagement resolver (SAMLauncherExecution; likewise
    modelled from the specification, with its tests as exemplars).
-/

/- ---------------------------------------------------------------
   Part A. Wire values and the zod schemas of src/core/Schemas.ts
   --------------------------------------------------------------- -/

/-- JSON-like wire values: the raw structures the zod validators receive.
Numbers are rationals (JS numbers include non-integers); bigints are kept
apart from numbers, as zod distinguishes z.number() from z.bigint(). -/
inductive JVal where
  | jnum (q : Rat)
  | jbigintv (n : Int)
  | jstr (s : String)
  | jbool (b : Bool)
  | jnull
  | jarr (xs : List JVal)
  | jobj (fields : List (String × JVal))

/-- The ID schema of Schemas.ts: an 8 character alphanumeric string
(z.string().regex of a-zA-Z0-9 one or more times, .length(8)). -/
def isID (s : String) : Bool :=
  s.length == 8 && s.data.all (fun c => c.isAlpha || c.isDigit)

/-- Field validators occurring in the intent schemas of Schemas.ts.
fexternal stands for validators whose data lives outside the sources
(country codes, the emoji table, quick chat keys, the PlayerType and
UnitType enumerations, pattern decoding); they are modelled from the
spec as accepting, which no theorem below depends on. fsafeStr keeps
the max(1000) length bound of SafeString; its character class regex is
likewise abstracted as accepting. -/
inductive FieldSchema where
  | fid
  | fstr
  | fsafeStr
  | fnum
  | fnumNonneg
  | fbigint
  | fbool
  | flit (s : String)
  | fenum (opts : List String)
  | fnullable (f : FieldSchema)
  | foptional (f : FieldSchema)
  | funion2 (f g : FieldSchema)
  | fexternal
deriving DecidableEq

/-- Check one present field value against its schema. -/
def checkField : FieldSchema → JVal → Bool
  | .fid, .jstr s => isID s
  | .fid, _ => false
  | .fstr, .jstr _ => true
  | .fstr, _ => false
  | .fsafeStr, .jstr s => decide (s.length ≤ 1000)
  | .fsafeStr, _ => false
  | .fnum, .jnum _ => true
  | .fnum, _ => false
  | .fnumNonneg, .jnum q => decide (0 ≤ q)
  | .fnumNonneg, _ => false
  | .fbigint, .jbigintv _ => true
  | .fbigint, _ => false
  | .fbool, .jbool _ => true
  | .fbool, _ => false
  | .flit s, .jstr t => s == t
  | .flit _, _ => false
  | .fenum opts, .jstr t => opts.contains t
  | .fenum _, _ => false
  | .fnullable _, .jnull => true
  | .fnullable f, v => checkField f v
  | .foptional f, v => checkField f v
  | .funion2 f g, v => checkField f v || checkField g v
  | .fexternal, _ => true

/-- Only a schema wrapped in .optional() tolerates a missing field. -/
def isOptionalSchema : FieldSchema → Bool
  | .foptional _ => true
  | _ => false

/-- Check a field that may be absent from the object. -/
def checkFieldOpt (f : FieldSchema) : Option JVal → Bool
  | none => isOptionalSchema f
  | some v => checkField f v

/-- First value stored under a name in a JSON object field list. -/
def getField : List (String × JVal) → String → Option JVal
  | [], _ => none
  | p :: rest, name => if p.1 = name then some p.2 else getField rest name

/-- A zod object shape: field names with their validators. zod strips
unknown keys rather than rejecting them, so only listed names are checked. -/
def checkShape (shape : List (String × FieldSchema)) (fields : List (String × JVal)) : Bool :=
  shape.all (fun p => checkFieldOpt p.2 (getField fields p.1))

/- The twenty intent variants. Each shape starts with the clientID field
of BaseIntentSchema, which every variant extends, followed by the literal
type discriminator and the variant specific fields, in source order. -/

def attackIntentShape : List (String × FieldSchema) :=
  [("clientID", .fid), ("type", .flit "attack"),
   ("targetID", .fnullable .fid), ("troops", .fnullable .fnumNonneg)]

def cancelAttackIntentShape : List (String × FieldSchema) :=
  [("clientID", .fid), ("type", .flit "cancel_attack"), ("attackID", .fstr)]

def spawnIntentShape : List (String × FieldSchema) :=
  [("clientID", .fid), ("type", .flit "spawn"), ("name", .fsafeStr),
   ("flag", .foptional .fexternal), ("pattern", .foptional .fexternal),
   ("playerType", .fexternal), ("tile", .fnum)]

def markDisconnectedIntentShape : List (String × FieldSchema) :=
  [("clientID", .fid), ("type", .flit "mark_disconnected"), ("isDisconnected", .fbool)]

def boatAttackIntentShape : List (String × FieldSchema) :=
  [("clientID", .fid), ("type", .flit "boat"), ("targetID", .fnullable .fid),
   ("troops", .fnumNonneg), ("dst", .fnum), ("src", .fnullable .fnum)]

def cancelBoatIntentShape : List (String × FieldSchema) :=
  [("clientID", .fid), ("type", .flit "cancel_boat"), ("unitID", .fnum)]

def allianceRequestIntentShape : List (String × FieldSchema) :=
  [("clientID", .fid), ("type", .flit "allianceRequest"), ("recipient", .fid)]

def allianceRequestReplyIntentShape : List (String × FieldSchema) :=
  [("clientID", .fid), ("type", .flit "allianceRequestReply"),
   ("requestor", .fid), ("accept", .fbool)]

def breakAllianceIntentShape : List (String × FieldSchema) :=
  [("clientID", .fid), ("type", .flit "breakAlliance"), ("recipient", .fid)]

def targetPlayerIntentShape : List (String × FieldSchema) :=
  [("clientID", .fid), ("type", .flit "targetPlayer"), ("target", .fid)]

/- The AllPlayers literal constant lives in Game.ts, outside the sources;
its concrete value is modelled from the spec as the string AllPlayers. -/
def emojiIntentShape : List (String × FieldSchema) :=
  [("clientID", .fid), ("type", .flit "emoji"),
   ("recipient", .funion2 .fid (.flit "AllPlayers")), ("emoji", .fexternal)]

def donateGoldIntentShape : List (String × FieldSchema) :=
  [("clientID", .fid), ("type", .flit "donate_gold"),
   ("recipient", .fid), ("gold", .fnullable .fbigint)]

def donateTroopIntentShape : List (String × FieldSchema) :=
  [("clientID", .fid), ("type", .flit "donate_troops"),
   ("recipient", .fid), ("troops", .fnullable .fnum)]

def buildUnitIntentShape : List (String × FieldSchema) :=
  [("clientID", .fid), ("type", .flit "build_unit"),
   ("unit", .fexternal), ("tile", .fnum)]

def upgradeStructureIntentShape : List (String × FieldSchema) :=
  [("clientID", .fid), ("type", .flit "upgrade_structure"),
   ("unit", .fexternal), ("unitId", .fnum)]

def embargoIntentShape : List (String × FieldSchema) :=
  [("clientID", .fid), ("type", .flit "embargo"), ("targetID", .fid),
   ("action", .funion2 (.flit "start") (.flit "stop"))]

def moveWarshipIntentShape : List (String × FieldSchema) :=
  [("clientID", .fid), ("type", .flit "move_warship"),
   ("unitId", .fnum), ("tile", .fnum)]

def quickChatIntentShape : List (String × FieldSchema) :=
  [("clientID", .fid), ("type", .flit "quick_chat"), ("recipient", .fid),
   ("quickChatKey", .fexternal), ("target", .foptional .fid)]

def allianceExtensionIntentShape : List (String × FieldSchema) :=
  [("clientID", .fid), ("type", .flit "allianceExtension"), ("recipient", .fid)]

def kickPlayerIntentShape : List (String × FieldSchema) :=
  [("clientID", .fid), ("type", .flit "kick_player"), ("target", .fid)]

/-- The closed discriminated union IntentSchema, in source order:
discriminator literal paired with the variant shape. -/
def intentVariants : List (String × List (String × FieldSchema)) :=
  [("attack", attackIntentShape),
   ("cancel_attack", cancelAttackIntentShape),
   ("spawn", spawnIntentShape),
   ("mark_disconnected", markDisconnectedIntentShape),
   ("boat", boatAttackIntentShape),
   ("cancel_boat", cancelBoatIntentShape),
   ("allianceRequest", allianceRequestIntentShape),
   ("allianceRequestReply", allianceRequestReplyIntentShape),
   ("breakAlliance", breakAllianceIntentShape),
   ("targetPlayer", targetPlayerIntentShape),
   ("emoji", emojiIntentShape),
   ("donate_gold", donateGoldIntentShape),
   ("donate_troops", donateTroopIntentShape),
   ("build_unit", buildUnitIntentShape),
   ("upgrade_structure", upgradeStructureIntentShape),
   ("embargo", embargoIntentShape),
   ("move_warship", moveWarshipIntentShape),
   ("quick_chat", quickChatIntentShape),
   ("allianceExtension", allianceExtensionIntentShape),
   ("kick_player", kickPlayerIntentShape)]

/-- Look up the variant whose discriminator literal matches the tag,
as z.discriminatedUnion does on the type field. -/
def findVariant : List (String × List (String × FieldSchema)) → String → Option (List (String × FieldSchema))
  | [], _ => none
  | p :: rest, tag => if p.1 = tag then some p.2 else findVariant rest tag

/-- Validation of a candidate intent: a pure function from the raw
structure to a valid variant or a validation error, never a fallback. -/
def parseIntent (v : JVal) : Except String Unit :=
  match v with
  | .jobj fields =>
    match getField fields "type" with
    | some (.jstr tag) =>
      match findVariant intentVariants tag with
      | some shape =>
          if checkShape shape fields then .ok () else .error "invalid intent fields"
      | none => .error "unknown intent type"
    | _ => .error "missing type discriminator"
  | _ => .error "intent must be an object"

def isOkParse (r : Except String Unit) : Bool :=
  match r with
  | .ok _ => true
  | .error _ => false

/-- TurnSchema field turnNumber: z.number(). -/
def turnNumberOk (fields : List (String × JVal)) : Bool :=
  match getField fields "turnNumber" with
  | some (.jnum _) => true
  | _ => false

/-- TurnSchema field intents: IntentSchema.array(). -/
def intentsOk (fields : List (String × JVal)) : Bool :=
  match getField fields "intents" with
  | some (.jarr xs) => xs.all (fun x => isOkParse (parseIntent x))
  | _ => false

/-- TurnSchema field hash: z.number().nullable().optional(). -/
def hashOk (fields : List (String × JVal)) : Bool :=
  match getField fields "hash" with
  | none => true
  | some .jnull => true
  | some (.jnum _) => true
  | _ => false

/-- TurnSchema of Schemas.ts. -/
def parseTurn (v : JVal) : Except String Unit :=
  match v with
  | .jobj fields =>
    if turnNumberOk fields && intentsOk fields && hashOk fields then .ok ()
    else .error "invalid turn"
  | _ => .error "turn must be an object"

/-- A well formed attack intent used as a concrete check input. -/
def sampleAttackIntent : JVal :=
  .jobj [("clientID", .jstr "abcd1234"), ("type", .jstr "attack"),
         ("targetID", .jnull), ("troops", .jnum 10)]

/- ---------------------------------------------------------------
   Part B. UnitView.missileReadinesss from GameView.ts
   --------------------------------------------------------------- -/

/-- UnitView.missileReadinesss from GameView.ts, with the numeric inputs
taken as rationals (JS numbers). level is data.level, missileTimerQueue
is the queue of reload start ticks, ticks is gameView.ticks(), and
cooldownDuration is config().SAMCooldown() for a SAMLauncher and
config().SiloCooldown() otherwise, passed in already selected. -/
def missileReadinesss (level : Rat) (missileTimerQueue : List Rat)
    (ticks : Rat) (cooldownDuration : Rat) : Rat :=
  let missilesReloading := missileTimerQueue.length
  if missilesReloading = 0 then 1
  else
    let missilesReady : Rat := level - (missilesReloading : Rat)
    if missilesReady = 0 ∧ 1 < level then 0
    else
      missilesReady / level
        + (missileTimerQueue.map
            (fun cooldown => ((ticks - cooldown) / cooldownDuration) / level)).sum

/- ---------------------------------------------------------------
   Part C. The client world view GameView.ts
   --------------------------------------------------------------- -/

/-- The slice of a UnitUpdate record that the claims touch. -/
structure UnitUpdateM where
  id : Nat
  pos : Nat
  isActive : Bool

/-- The UnitView mirror object: the latest backing record, the bounded
position history, and the was-updated flag. -/
structure UnitViewM where
  data : UnitUpdateM
  lastPos : List Nat
  wasUpdated : Bool

/-- The slice of a PlayerUpdate record that the claims touch. -/
structure PlayerUpdateM where
  id : String
  smallID : Nat

/-- The PlayerView mirror object. -/
structure PlayerViewM where
  data : PlayerUpdateM

/-- Insertion ordered association list standing for a JS Map: set
replaces in place when the key exists and appends otherwise. -/
def setAssoc {κ α : Type} [DecidableEq κ] : List (κ × α) → κ → α → List (κ × α)
  | [], k, v => [(k, v)]
  | p :: rest, k, v => if p.1 = k then (k, v) :: rest else p :: setAssoc rest k v

/-- Map.get on the association list. -/
def lookupAssoc {κ α : Type} [DecidableEq κ] : List (κ × α) → κ → Option α
  | [], _ => none
  | p :: rest, k => if p.1 = k then some p.2 else lookupAssoc rest k

/-- GameView state: the small-id table, the player map, the unit map,
the ids currently held by the spatial unit index, and the deferred
deletion set. The UnitGrid implementation is outside the sources, so the
index is modelled by the set of member unit ids, which is all the grace
window claims observe of it. -/
structure GameViewM where
  smallIDToID : List (Nat × String)
  players : List (String × PlayerViewM)
  unitViews : List (Nat × UnitViewM)
  gridIds : List Nat
  toDelete : List Nat

/-- One per tick delta, restricted to player and unit records. -/
structure GameUpdateM where
  playerUpdates : List PlayerUpdateM
  unitUpdates : List UnitUpdateM

/-- UnitView.tile(). -/
def unitTile (u : UnitViewM) : Nat := u.data.pos

/-- UnitView.lastTile(): the head of lastPos, falling back to data.pos. -/
def unitLastTile (u : UnitViewM) : Nat :=
  match u.lastPos with
  | [] => u.data.pos
  | t :: _ => t

/-- unitGrid.removeUnit, on index membership: tolerated silently when the
unit was never indexed. -/
def gridRemove (g : List Nat) (i : Nat) : List Nat :=
  g.filter (fun j => decide (j ≠ i))

/-- unitGrid.addUnit, on index membership. -/
def gridAdd (g : List Nat) (i : Nat) : List Nat := g ++ [i]

/-- Set.add on the deferred deletion set. -/
def addToDelete (l : List Nat) (i : Nat) : List Nat :=
  if i ∈ l then l else l ++ [i]

/-- The cleanup pass at the top of GameView.update: units marked for
deletion on the previous tick are dropped from the unit map. -/
def cleanupPass (gv : GameViewM) : GameViewM :=
  { gv with
    unitViews := gv.unitViews.filter (fun p => decide (p.1 ∉ gv.toDelete)),
    toDelete := [] }

/-- Player reconciliation: the small-id table entry is always refreshed;
a known identity updates the mirror in place, an unknown identity creates
a new mirror. -/
def applyPlayerUpdate (gv : GameViewM) (pu : PlayerUpdateM) : GameViewM :=
  { gv with
    smallIDToID := setAssoc gv.smallIDToID pu.smallID pu.id,
    players := setAssoc gv.players pu.id ⟨pu⟩ }

/-- The per tick reset loop over existing units: wasUpdated is cleared
and lastPos is trimmed to its final element (slice(-1)). -/
def trimPass (gv : GameViewM) : GameViewM :=
  { gv with
    unitViews := gv.unitViews.map (fun p =>
      (p.1, { p.2 with
                wasUpdated := false,
                lastPos := p.2.lastPos.drop (p.2.lastPos.length - 1) })) }

/-- Unit reconciliation for one incoming record, following the forEach
body in GameView.update: update in place or create and index; on an
inactive record remove from the index immediately; an active moved unit
is re-bucketed (membership unchanged); an inactive unit is queued for
deletion on the next tick. -/
def applyUnitUpdate (gv : GameViewM) (uu : UnitUpdateM) : GameViewM :=
  let found := lookupAssoc gv.unitViews uu.id
  let u1 : UnitViewM :=
    match found with
    | some u0 => { data := uu, lastPos := u0.lastPos ++ [uu.pos], wasUpdated := true }
    | none => { data := uu, lastPos := [uu.pos], wasUpdated := true }
  let gv1 :=
    match found with
    | some _ => { gv with unitViews := setAssoc gv.unitViews uu.id u1 }
    | none =>
      { gv with
        unitViews := setAssoc gv.unitViews uu.id u1,
        gridIds := gridAdd gv.gridIds uu.id }
  let gv2 :=
    if !uu.isActive then { gv1 with gridIds := gridRemove gv1.gridIds uu.id }
    else gv1
  if !u1.data.isActive then { gv2 with toDelete := addToDelete gv2.toDelete uu.id }
  else gv2

/-- GameView.update restricted to player and unit reconciliation:
cleanup pass, player updates, reset loop, then unit updates in order. -/
def updateView (gv : GameViewM) (gu : GameUpdateM) : GameViewM :=
  gu.unitUpdates.foldl applyUnitUpdate
    (trimPass (gu.playerUpdates.foldl applyPlayerUpdate (cleanupPass gv)))

/-- GameView.units() with no type filter: every mirror that is active. -/
def unitsEnum (gv : GameViewM) : List UnitViewM :=
  (gv.unitViews.map Prod.snd).filter (fun u => u.data.isActive)

/-- GameView.player: throws when the id is unknown. -/
def playerOf (gv : GameViewM) (pid : String) : Except String PlayerViewM :=
  match lookupAssoc gv.players pid with
  | none => .error "player id not found"
  | some p => .ok p

/-- Result of resolving a small-id: the unclaimed territory sentinel or
a player view. -/
inductive Resolved where
  | terraNullius
  | player (p : PlayerViewM)

/-- GameView.playerBySmallID: the reserved small-id 0 resolves to the
TerraNullius sentinel; any other unregistered small-id throws. -/
def playerBySmallID (gv : GameViewM) (i : Nat) : Except String Resolved :=
  if i = 0 then .ok .terraNullius
  else
    match lookupAssoc gv.smallIDToID i with
    | none => .error "small id not found"
    | some pid =>
      match playerOf gv pid with
      | .error e => .error e
      | .ok p => .ok (.player p)

/-- GameView.hasPlayer, verbatim from the source: it returns false. -/
def hasPlayer (gv : GameViewM) (id : String) : Bool := false

/- Concrete states used by closed checks. -/

def gvEmpty : GameViewM := ⟨[], [], [], [], []⟩

def uuActive7 : UnitUpdateM := ⟨7, 3, true⟩

def uuInactive7 : UnitUpdateM := ⟨7, 3, false⟩

def gvTickA : GameViewM := updateView gvEmpty ⟨[], [uuActive7]⟩

def gvTickB : GameViewM := updateView gvTickA ⟨[], [uuInactive7]⟩

def gvTickC : GameViewM := updateView gvTickB ⟨[], []⟩

def pvSample : PlayerViewM := ⟨⟨"p1", 3⟩⟩

def gvWithPlayer : GameViewM := ⟨[(3, "p1")], [("p1", pvSample)], [], [], []⟩

/- ---------------------------------------------------------------
   Part D. The spatial unit index query surface (UnitGrid)
   --------------------------------------------------------------- -/

/-- Squared Euclidean distance between cell centers. -/
def distSq (x1 y1 x2 y2 : Int) : Int :=
  (x1 - x2) * (x1 - x2) + (y1 - y2) * (y1 - y2)

/-- A unit as the spatial index sees it. -/
structure GUnit where
  id : Nat
  utype : String
  ownerId : String
  posX : Int
  posY : Int
  active : Bool
deriving DecidableEq

/-- Modelled from the spec: the UnitGrid implementation is not under the
sources (only its tests and its GameView caller are). Per the spec,
nearbyUnits returns every active unit of one of the requested types whose
squared Euclidean distance to the query tile is at most radius squared,
each paired with that squared distance, filtered by the optional
predicate; bucket iteration is an optimization with the same observable
result as this direct scan. -/
def nearbyUnits (units : List GUnit) (tx ty : Int) (radius : Int)
    (types : List String) (pred : GUnit → Bool) : List (GUnit × Int) :=
  (units.filter (fun u =>
      u.active && types.contains u.utype
        && decide (distSq u.posX u.posY tx ty ≤ radius * radius)
        && pred u)).map
    (fun u => (u, distSq u.posX u.posY tx ty))

/-- Modelled from the spec: hasUnitNearby is the specialization that is
true exactly when at least one active unit of the given type and owning
player lies within the radius, boundary inclusive. -/
def hasUnitNearby (units : List GUnit) (tx ty : Int) (radius : Int)
    (t : String) (owner : String) : Bool :=
  units.any (fun u =>
    u.active && u.utype == t && u.ownerId == owner
      && decide (distSq u.posX u.posY tx ty ≤ radius * radius))

/-- A defense post at the origin, mirroring the UnitGrid range tests. -/
def postUnit : GUnit := ⟨1, "DefensePost", "test_id", 0, 0, true⟩

/- ---------------------------------------------------------------
   Part E. The interceptor engagement resolver
   --------------------------------------------------------------- -/

/-- Modelled from the spec: the per launcher engagement states. Idle
(no target, not cooling down) and Cooldown (firing resolved, timer
running). A commitment resolves within the tick it is made, the
interceptor leaving the tick in Cooldown, so the transient Engaged state
is represented by the commitment list a tick returns. -/
inductive SamState where
  | idle
  | cooldown (remaining : Nat)
deriving DecidableEq

/-- An interceptor capable unit. -/
structure Sam where
  id : Nat
  posX : Int
  posY : Int
  radius : Int
  owner : Nat
  state : SamState
deriving DecidableEq

/-- A guided munition: its current position, the remaining flight path
it will fly after the current tick, ending at its target tile, and its
activity flag. -/
structure Munition where
  id : Nat
  posX : Int
  posY : Int
  futurePath : List (Int × Int)
  owner : Nat
  active : Bool
deriving DecidableEq

/-- Is a tile within the engagement radius of the interceptor. -/
def samInRadius (s : Sam) (x y : Int) : Bool :=
  decide (distSq x y s.posX s.posY ≤ s.radius * s.radius)

/-- Modelled from the spec: does the remaining flight path of the
munition still pass through the radius of the interceptor before the
munition reaches its target. -/
def pathReachable (s : Sam) (m : Munition) : Bool :=
  m.futurePath.any (fun t => samInRadius s t.1 t.2)

/-- Modelled from the spec: the eligibility scan filter. An active
hostile munition currently within the engagement radius, further
filtered by the reachability lookahead; a munition already past the
point of interceptability is excluded even if currently in range. -/
def eligibleTarget (s : Sam) (m : Munition) : Bool :=
  m.active && (m.owner != s.owner) && samInRadius s m.posX m.posY && pathReachable s m

/-- Modelled from the spec: the tie break order. Nearest by remaining
path distance, ties broken by lowest identity for reproducibility. -/
def closerThreat (a b : Munition) : Bool :=
  decide (a.futurePath.length < b.futurePath.length)
    || (a.futurePath.length == b.futurePath.length && decide (a.id < b.id))

def pickBetter (acc : Option Munition) (m : Munition) : Option Munition :=
  match acc with
  | none => some m
  | some b => if closerThreat m b then some m else some b

/-- Modelled from the spec: target acquisition for one idle interceptor,
skipping munitions already claimed this tick. -/
def pickTarget (s : Sam) (ms : List Munition) (claimed : List Nat) : Option Munition :=
  (ms.filter (fun m => eligibleTarget s m && decide (m.id ∉ claimed))).foldl pickBetter none

/-- The committed munition is destroyed when the engagement resolves. -/
def destroyMunition (ms : List Munition) (mid : Nat) : List Munition :=
  ms.map (fun m => if m.id = mid then { m with active := false } else m)

/-- Modelled from the spec: one tick of the engagement resolver over the
interceptors in their fixed evaluation order (the list is kept in
ascending unit id order by the caller). An idle interceptor commits to
at most one eligible unclaimed munition; the engagement resolves within
the tick, destroying the munition and starting the cooldown at the
configured duration cfg; a cooling interceptor only decrements its timer
and can acquire nothing. Returns the interceptors, the munitions, and
the commitments made this tick as pairs of interceptor id and munition
id. -/
def samResolve (cfg : Nat) : List Sam → List Munition → List (Nat × Nat) →
    List Sam × List Munition × List (Nat × Nat)
  | [], ms, cs => ([], ms, cs)
  | s :: rest, ms, cs =>
    match s.state with
    | .idle =>
      match pickTarget s ms (cs.map Prod.snd) with
      | some m =>
        let r := samResolve cfg rest (destroyMunition ms m.id) (cs ++ [(s.id, m.id)])
        ({ s with state := .cooldown cfg } :: r.1, r.2.1, r.2.2)
      | none =>
        let r := samResolve cfg rest ms cs
        (s :: r.1, r.2.1, r.2.2)
    | .cooldown n =>
      let s' := { s with state := if n ≤ 1 then SamState.idle else .cooldown (n - 1) }
      let r := samResolve cfg rest ms cs
      (s' :: r.1, r.2.1, r.2.2)

/-- Modelled from the spec: a surviving munition advances one step along
its remaining path; on an exhausted path it has reached its target and
goes terminal. -/
def advanceMunition (m : Munition) : Munition :=
  if !m.active then m
  else
    match m.futurePath with
    | [] => { m with active := false }
    | t :: rest => { m with posX := t.1, posY := t.2, futurePath := rest }

/-- One full tick: engagement resolution, then munition movement. -/
def gameTick (cfg : Nat) (sams : List Sam) (ms : List Munition) :
    List Sam × List Munition × List (Nat × Nat) :=
  let r := samResolve cfg sams ms []
  (r.1, r.2.1.map advanceMunition, r.2.2)

/-- Iterated ticks of the engagement subsystem. -/
def runTicks (cfg : Nat) : Nat → List Sam × List Munition → List Sam × List Munition
  | 0, st => st
  | k + 1, st =>
    let r := gameTick cfg st.1 st.2
    runTicks cfg k (r.1, r.2.1)

/-- Unit.isInCooldown. -/
def isInCooldown (s : Sam) : Bool :=
  match s.state with
  | .cooldown _ => true
  | _ => false

/- Concrete interceptors and munitions used by closed checks. -/

def samA : Sam := ⟨1, 0, 0, 5, 0, .idle⟩

def samB : Sam := ⟨2, 0, 1, 5, 0, .idle⟩

def samFar : Sam := ⟨3, 100, 100, 5, 0, .idle⟩

def nukeA : Munition := ⟨10, 0, 0, [(0, 1), (0, 2)], 1, true⟩

/- ---------------------------------------------------------------
   Helper lemmas
   --------------------------------------------------------------- -/

theorem lookupAssoc_setAssoc_self {κ α : Type} [DecidableEq κ]
    (m : List (κ × α)) (k : κ) (v : α) :
    lookupAssoc (setAssoc m k v) k = some v := by
  induction m with
  | nil => simp [setAssoc, lookupAssoc]
  | cons p rest ih =>
    by_cases h : p.1 = k
    · simp [setAssoc, h, lookupAssoc]
    · simp [setAssoc, h, lookupAssoc, ih]

theorem lookupAssoc_setAssoc_ne {κ α : Type} [DecidableEq κ]
    (m : List (κ × α)) (k i : κ) (v : α) (h : k ≠ i) :
    lookupAssoc (setAssoc m k v) i = lookupAssoc m i := by
  induction m with
  | nil => simp [setAssoc, lookupAssoc, h]
  | cons p rest ih =>
    by_cases hp : p.1 = k
    · simp [setAssoc, hp, lookupAssoc, h]
    · simp [setAssoc, hp, lookupAssoc, ih]

theorem rat_list_sum_nonneg (l : List Rat) (h : ∀ x ∈ l, 0 ≤ x) : 0 ≤ l.sum := by
  induction l with
  | nil => simp
  | cons a t ih =>
    simp only [List.sum_cons]
    have ha := h a (by simp)
    have ht := ih (fun x hx => h x (by simp [hx]))
    linarith

theorem rat_list_sum_le (l : List Rat) (b : Rat) (h : ∀ x ∈ l, x ≤ b) :
    l.sum ≤ l.length * b := by
  induction l with
  | nil => simp
  | cons a t ih =>
    simp only [List.sum_cons, List.length_cons]
    have ha := h a (by simp)
    have ht := ih (fun x hx => h x (by simp [hx]))
    have hexp : ((t.length + 1 : Nat) : Rat) * b = (t.length : Rat) * b + b := by
      push_cast
      ring
    rw [hexp]
    linarith

theorem turnNumberOk_iff (fields : List (String × JVal)) :
    turnNumberOk fields = true ↔ ∃ q, getField fields "turnNumber" = some (.jnum q) := by
  unfold turnNumberOk
  cases h : getField fields "turnNumber" with
  | none => simp
  | some v => cases v <;> simp

theorem intentsOk_iff (fields : List (String × JVal)) :
    intentsOk fields = true ↔
      ∃ xs, getField fields "intents" = some (.jarr xs) ∧
        ∀ x ∈ xs, isOkParse (parseIntent x) = true := by
  unfold intentsOk
  cases h : getField fields "intents" with
  | none => simp
  | some v => cases v <;> simp [List.all_eq_true]

theorem hashOk_iff (fields : List (String × JVal)) :
    hashOk fields = true ↔
      (getField fields "hash" = none ∨ getField fields "hash" = some .jnull ∨
        ∃ q, getField fields "hash" = some (.jnum q)) := by
  unfold hashOk
  cases h : getField fields "hash" with
  | none => simp
  | some v => cases v <;> simp

theorem parseTurn_obj_ok (fields : List (String × JVal)) :
    parseTurn (.jobj fields) = .ok () ↔
      (turnNumberOk fields = true ∧ intentsOk fields = true ∧ hashOk fields = true) := by
  unfold parseTurn
  by_cases h1 : turnNumberOk fields = true <;>
    by_cases h2 : intentsOk fields = true <;>
      by_cases h3 : hashOk fields = true <;>
        simp [h1, h2, h3]

theorem clientID_in_every_variant :
    ∀ p ∈ intentVariants, ("clientID", FieldSchema.fid) ∈ p.2 := by decide

theorem findVariant_mem :
    ∀ (l : List (String × List (String × FieldSchema))) (tag : String)
      (shape : List (String × FieldSchema)),
      findVariant l tag = some shape → (tag, shape) ∈ l := by
  intro l
  induction l with
  | nil => intro tag shape h; simp [findVariant] at h
  | cons p rest ih =>
    intro tag shape h
    obtain ⟨a, b⟩ := p
    by_cases hp : a = tag
    · subst hp
      simp [findVariant] at h
      subst h
      exact List.mem_cons_self _ _
    · simp [findVariant, hp] at h
      exact List.mem_cons_of_mem _ (ih tag shape h)

theorem findVariant_none (l : List (String × List (String × FieldSchema))) (tag : String)
    (h : tag ∉ l.map Prod.fst) : findVariant l tag = none := by
  induction l with
  | nil => rfl
  | cons p rest ih =>
    simp only [List.map_cons, List.mem_cons] at h
    push_neg at h
    unfold findVariant
    rw [if_neg (fun hh => h.1 hh.symm)]
    exact ih h.2

/- ---------------------------------------------------------------
   Claim theorems
   --------------------------------------------------------------- -/

/-- C9: resolving a small-id that was never registered through a player
update is a hard failure, except the reserved small-id 0, which resolves
to the TerraNullius sentinel instead of failing. -/
theorem player_by_small_id_failure_policy :
    (∀ gv : GameViewM, playerBySmallID gv 0 = .ok .terraNullius) ∧
    (∀ (gv : GameViewM) (i : Nat), i ≠ 0 → lookupAssoc gv.smallIDToID i = none →
      playerBySmallID gv i = .error "small id not found") := by
  constructor
  · intro gv
    simp [playerBySmallID]
  · intro gv i hi hl
    simp [playerBySmallID, hi, hl]

theorem player_by_small_id_failure_policy_checked :
    playerBySmallID gvWithPlayer 0 = .ok .terraNullius ∧
    playerBySmallID gvWithPlayer 5 = .error "small id not found" :=
  ⟨player_by_small_id_failure_policy.1 gvWithPlayer,
   player_by_small_id_failure_policy.2 gvWithPlayer 5 (by decide) (by rfl)⟩

/-- C10: GameView.hasPlayer returns false for every player id, even ids
that GameView.player resolves to an existing PlayerView, so it never
reflects the membership of the player table. -/
theorem has_player_always_false :
    (∀ (gv : GameViewM) (pid : String), hasPlayer gv pid = false) ∧
    (∃ (gv : GameViewM) (pid : String) (p : PlayerViewM),
      playerOf gv pid = .ok p ∧ hasPlayer gv pid = false) := by
  refine ⟨fun gv pid => rfl, ⟨gvWithPlayer, "p1", pvSample, ?_, rfl⟩⟩
  rfl

/-- C6 counterexample: with level 1, one charge reloading whose elapsed
time is twice the cooldown window, missileReadinesss evaluates to 2, so
the readiness value is not confined to the interval from 0 to 1. -/
theorem missile_readiness_exceeds_one :
    missileReadinesss 1 [0] 20 10 = 2 ∧ ¬ missileReadinesss 1 [0] 20 10 ≤ 1 := by
  constructor
  · norm_num [missileReadinesss]
  · norm_num [missileReadinesss]

/-- C6 amended: missileReadinesss equals 1 whenever no charge is
reloading, and it lies in the interval from 0 to 1 provided the queue
holds at most level charges and each reloading charge has nonnegative
elapsed time at most the cooldown window; outside those provisos the
formula is unclamped. -/
theorem missile_readiness_amended (level : Rat) (queue : List Rat) (ticks dur : Rat)
    (hlevel : 1 ≤ level) (hq : (queue.length : Rat) ≤ level) (hdur : 0 < dur)
    (hprog : ∀ c ∈ queue, c ≤ ticks ∧ ticks - c ≤ dur) :
    (queue = [] → missileReadinesss level queue ticks dur = 1) ∧
    0 ≤ missileReadinesss level queue ticks dur ∧
    missileReadinesss level queue ticks dur ≤ 1 := by
  have hlevel0 : 0 < level := lt_of_lt_of_le one_pos hlevel
  constructor
  · intro hq0
    subst hq0
    simp [missileReadinesss]
  · by_cases hnil : queue = []
    · subst hnil
      norm_num [missileReadinesss]
    · have hlen : ¬ queue.length = 0 := by
        simpa [List.length_eq_zero] using hnil
      simp only [missileReadinesss]
      rw [if_neg hlen]
      by_cases hzero : level - (queue.length : Rat) = 0 ∧ 1 < level
      · rw [if_pos hzero]
        norm_num
      · rw [if_neg hzero]
        have hterm : ∀ x ∈ queue.map
            (fun cooldown => ((ticks - cooldown) / dur) / level), 0 ≤ x ∧ x ≤ 1 / level := by
          intro x hx
          rcases List.mem_map.mp hx with ⟨c, hc, rfl⟩
          rcases hprog c hc with ⟨hc1, hc2⟩
          constructor
          · apply div_nonneg _ hlevel0.le
            apply div_nonneg _ hdur.le
            linarith
          · apply (div_le_div_iff_of_pos_right hlevel0).mpr
            exact (div_le_one hdur).mpr hc2
        have hsum0 : 0 ≤ (queue.map
            (fun cooldown => ((ticks - cooldown) / dur) / level)).sum :=
          rat_list_sum_nonneg _ (fun x hx => (hterm x hx).1)
        have hsumle : (queue.map
            (fun cooldown => ((ticks - cooldown) / dur) / level)).sum
              ≤ (queue.length : Rat) * (1 / level) := by
          have := rat_list_sum_le (queue.map
              (fun cooldown => ((ticks - cooldown) / dur) / level)) (1 / level)
              (fun x hx => (hterm x hx).2)
          simpa [List.length_map] using this
        have hready0 : 0 ≤ (level - (queue.length : Rat)) / level :=
          div_nonneg (by linarith) hlevel0.le
        constructor
        · linarith
        · have hid : (level - (queue.length : Rat)) / level
              + (queue.length : Rat) * (1 / level) = 1 := by
            field_simp
          linarith

theorem missile_readiness_amended_checked :
    (0 : Rat) ≤ missileReadinesss 2 [5] 10 10 ∧ missileReadinesss 2 [5] 10 10 ≤ 1 :=
  (missile_readiness_amended 2 [5] 10 10 (by norm_num) (by norm_num) (by norm_num)
    (by intro c hc; simp at hc; subst hc; norm_num)).2

/-- C8 counterexample: TurnSchema validates turnNumber with z.number()
and not an integer check, so a turn whose turnNumber is the non integer
3 / 2 is accepted, refuting the claim that non integer values of these
fields are rejected. -/
theorem turn_schema_fractional_accepted :
    parseTurn (.jobj [("turnNumber", .jnum (3 / 2)), ("intents", .jarr [])]) = .ok () ∧
    ((3 : Rat) / 2).den = 2 := by
  constructor
  · rfl
  · norm_num

/-- C8 amended: a turn on the wire is an object whose turnNumber is any
number (integer or not), whose intents are an array of valid intents,
and whose hash is omitted, null, or any number; non numeric values of
turnNumber or hash are rejected. parseTurn accepts exactly these. -/
theorem turn_schema_wire_shape (fields : List (String × JVal)) :
    parseTurn (.jobj fields) = .ok () ↔
      ((∃ q, getField fields "turnNumber" = some (.jnum q)) ∧
       (∃ xs, getField fields "intents" = some (.jarr xs) ∧
          ∀ x ∈ xs, isOkParse (parseIntent x) = true) ∧
       (getField fields "hash" = none ∨ getField fields "hash" = some .jnull ∨
          ∃ q, getField fields "hash" = some (.jnum q))) := by
  rw [parseTurn_obj_ok, turnNumberOk_iff, intentsOk_iff, hashOk_iff]

theorem turn_schema_wire_shape_checked :
    parseTurn (.jobj [("turnNumber", .jnum 4),
      ("intents", .jarr [sampleAttackIntent]), ("hash", .jnull)]) = .ok () := by
  rw [turn_schema_wire_shape]
  refine ⟨⟨4, rfl⟩, ⟨[sampleAttackIntent], rfl, ?_⟩, .inr (.inl rfl)⟩
  intro x hx
  simp only [List.mem_singleton] at hx
  subst hx
  rfl

/-- C7: every variant of the intent schema carries the issuing client
identity (a valid clientID field) alongside its literal discriminator,
and a candidate structure whose discriminator lies outside the closed
set yields a validation error, never a default variant. -/
theorem intent_schema_client_identity :
    (∀ v : JVal, parseIntent v = .ok () →
      ∃ fields, v = .jobj fields ∧
        ∃ s, getField fields "clientID" = some (.jstr s) ∧ isID s = true) ∧
    (∀ (fields : List (String × JVal)) (tag : String),
      getField fields "type" = some (.jstr tag) →
      tag ∉ intentVariants.map Prod.fst →
      parseIntent (.jobj fields) = .error "unknown intent type") := by
  constructor
  · intro v h
    cases v with
    | jnum q => simp [parseIntent] at h
    | jbigintv n => simp [parseIntent] at h
    | jstr s => simp [parseIntent] at h
    | jbool b => simp [parseIntent] at h
    | jnull => simp [parseIntent] at h
    | jarr xs => simp [parseIntent] at h
    | jobj fields =>
      refine ⟨fields, rfl, ?_⟩
      simp only [parseIntent] at h
      cases hty : getField fields "type" with
      | none => rw [hty] at h; simp at h
      | some tv =>
        rw [hty] at h
        cases tv with
        | jnum q => simp at h
        | jbigintv n => simp at h
        | jbool b => simp at h
        | jnull => simp at h
        | jarr xs => simp at h
        | jobj fs => simp at h
        | jstr tag =>
          simp only [] at h
          cases hfv : findVariant intentVariants tag with
          | none => rw [hfv] at h; simp at h
          | some shape =>
            rw [hfv] at h
            simp only [] at h
            by_cases hcs : checkShape shape fields = true
            · have hmem := findVariant_mem intentVariants tag shape hfv
              have hcid := clientID_in_every_variant (tag, shape) hmem
              have hall := (List.all_eq_true.mp hcs) ("clientID", FieldSchema.fid) hcid
              cases hg : getField fields "clientID" with
              | none =>
                rw [hg] at hall
                simp [checkFieldOpt, isOptionalSchema] at hall
              | some w =>
                rw [hg] at hall
                cases w with
                | jnum q => simp [checkFieldOpt, checkField] at hall
                | jbigintv n => simp [checkFieldOpt, checkField] at hall
                | jbool b => simp [checkFieldOpt, checkField] at hall
                | jnull => simp [checkFieldOpt, checkField] at hall
                | jarr xs => simp [checkFieldOpt, checkField] at hall
                | jobj fs => simp [checkFieldOpt, checkField] at hall
                | jstr s =>
                  simp only [checkFieldOpt, checkField] at hall
                  exact ⟨s, rfl, hall⟩
            · rw [if_neg hcs] at h
              simp at h
  · intro fields tag hty hmem
    simp only [parseIntent, hty, findVariant_none intentVariants tag hmem]

theorem intent_schema_client_identity_checked :
    (∃ fields, sampleAttackIntent = .jobj fields ∧
      ∃ s, getField fields "clientID" = some (.jstr s) ∧ isID s = true) ∧
    parseIntent (.jobj [("clientID", .jstr "abcd1234"), ("type", .jstr "teleport")])
      = .error "unknown intent type" :=
  ⟨intent_schema_client_identity.1 sampleAttackIntent (by rfl),
   intent_schema_client_identity.2 _ "teleport" (by rfl) (by decide)⟩

theorem not_mem_gridRemove (g : List Nat) (i : Nat) : i ∉ gridRemove g i := by
  intro h
  have := (List.mem_filter.mp h).2
  simp at this

theorem mem_addToDelete (l : List Nat) (i : Nat) : i ∈ addToDelete l i := by
  unfold addToDelete
  by_cases h : i ∈ l
  · simpa [h]
  · simp [h]

theorem inactive_not_in_unitsEnum (gv : GameViewM) (u : UnitViewM)
    (h : u.data.isActive = false) : u ∉ unitsEnum gv := by
  intro hmem
  have hpred := (List.mem_filter.mp hmem).2
  rw [h] at hpred
  exact Bool.false_ne_true hpred

theorem lookupAssoc_filter_del {α : Type} (m : List (Nat × α)) (dl : List Nat) (i : Nat)
    (h : i ∈ dl) :
    lookupAssoc (m.filter (fun p => decide (p.1 ∉ dl))) i = none := by
  induction m with
  | nil => rfl
  | cons p rest ih =>
    simp only [List.filter_cons]
    by_cases hp : p.1 ∈ dl
    · rw [if_neg (by simp [hp])]
      exact ih
    · rw [if_pos (by simp [hp])]
      have hne : p.1 ≠ i := fun he => hp (he ▸ h)
      simp only [lookupAssoc, hne, if_false]
      exact ih

theorem lookupAssoc_mapSnd_none {α β : Type} (m : List (Nat × α)) (f : Nat × α → β) (i : Nat)
    (h : lookupAssoc m i = none) :
    lookupAssoc (m.map (fun p => (p.1, f p))) i = none := by
  induction m with
  | nil => rfl
  | cons p rest ih =>
    simp only [List.map_cons, lookupAssoc] at h ⊢
    by_cases hp : p.1 = i
    · simp [hp] at h
    · simp only [hp, if_false] at h ⊢
      exact ih h

theorem playersFold_unitViews (pus : List PlayerUpdateM) :
    ∀ gv : GameViewM, (pus.foldl applyPlayerUpdate gv).unitViews = gv.unitViews := by
  induction pus with
  | nil => intro gv; rfl
  | cons p rest ih =>
    intro gv
    simp only [List.foldl_cons]
    rw [ih]
    rfl

theorem trimPass_unitViews (gv : GameViewM) :
    (trimPass gv).unitViews = gv.unitViews.map (fun p =>
      (p.1, { p.2 with
                wasUpdated := false,
                lastPos := p.2.lastPos.drop (p.2.lastPos.length - 1) })) := rfl

theorem cleanupPass_unitViews (gv : GameViewM) :
    (cleanupPass gv).unitViews
      = gv.unitViews.filter (fun p => decide (p.1 ∉ gv.toDelete)) := rfl

theorem applyUnitUpdate_unitViews (gv : GameViewM) (uu : UnitUpdateM) :
    ∃ u1, (applyUnitUpdate gv uu).unitViews = setAssoc gv.unitViews uu.id u1 := by
  unfold applyUnitUpdate
  cases hf : lookupAssoc gv.unitViews uu.id <;>
    by_cases hact : uu.isActive <;>
      simp [hf, hact]

theorem unitsFold_lookup_none (uus : List UnitUpdateM) :
    ∀ (gv : GameViewM) (i : Nat), (∀ v ∈ uus, v.id ≠ i) →
      lookupAssoc gv.unitViews i = none →
      lookupAssoc (uus.foldl applyUnitUpdate gv).unitViews i = none := by
  induction uus with
  | nil => intro gv i _ h; exact h
  | cons v rest ih =>
    intro gv i hids h
    simp only [List.foldl_cons]
    apply ih _ i (fun w hw => hids w (List.mem_cons_of_mem _ hw))
    obtain ⟨u1, hu⟩ := applyUnitUpdate_unitViews gv v
    rw [hu, lookupAssoc_setAssoc_ne _ _ _ _ (hids v (List.mem_cons_self _ _))]
    exact h

/-- C4: a unit at Euclidean distance exactly r from the query tile is
included by nearbyUnits and hasUnitNearby at radius r (the boundary
distance equal to the radius is in range), excluded by every strictly
smaller radius, and nearbyUnits pairs each returned unit with its
squared distance to the query tile. -/
theorem unit_grid_range_boundary (units : List GUnit) (u : GUnit) (tx ty r : Int)
    (types : List String)
    (hmem : u ∈ units) (hact : u.active = true) (hr : 0 ≤ r)
    (hdist : distSq u.posX u.posY tx ty = r * r)
    (htype : types.contains u.utype = true) :
    ((u, r * r) ∈ nearbyUnits units tx ty r types (fun _ => true)) ∧
    (hasUnitNearby units tx ty r u.utype u.ownerId = true) ∧
    (∀ r' : Int, 0 ≤ r' → r' < r → ∀ d : Int,
      (u, d) ∉ nearbyUnits units tx ty r' types (fun _ => true)) ∧
    (∀ r' : Int, 0 ≤ r' → r' < r →
      hasUnitNearby [u] tx ty r' u.utype u.ownerId = false) ∧
    (∀ (v : GUnit) (d : Int), (v, d) ∈ nearbyUnits units tx ty r types (fun _ => true) →
      d = distSq v.posX v.posY tx ty) := by
  have htype' : u.utype ∈ types := by simpa using htype
  refine ⟨?_, ?_, ?_, ?_, ?_⟩
  · unfold nearbyUnits
    refine List.mem_map.mpr ⟨u, List.mem_filter.mpr ⟨hmem, ?_⟩, by rw [hdist]⟩
    simp [hact, htype', hdist]
  · unfold hasUnitNearby
    refine List.any_eq_true.mpr ⟨u, hmem, ?_⟩
    simp [hact, hdist]
  · intro r' hr' hlt d hin
    unfold nearbyUnits at hin
    rcases List.mem_map.mp hin with ⟨w, hw, heq⟩
    have hw1 : w = u := (Prod.ext_iff.mp heq).1
    subst hw1
    have hp := (List.mem_filter.mp hw).2
    simp only [Bool.and_eq_true, decide_eq_true_eq] at hp
    have hle : distSq w.posX w.posY tx ty ≤ r' * r' := hp.1.2
    rw [hdist] at hle
    exact absurd hle (not_le.mpr (mul_self_lt_mul_self hr' hlt))
  · intro r' hr' hlt
    unfold hasUnitNearby
    simp only [List.any_cons, List.any_nil, Bool.or_false]
    have hgt : ¬ distSq u.posX u.posY tx ty ≤ r' * r' := by
      rw [hdist]
      exact not_le.mpr (mul_self_lt_mul_self hr' hlt)
    simp [hgt]
  · intro v d hin
    unfold nearbyUnits at hin
    rcases List.mem_map.mp hin with ⟨w, hw, heq⟩
    have h1 : w = v := (Prod.ext_iff.mp heq).1
    have h2 := (Prod.ext_iff.mp heq).2
    subst h1
    exact h2.symm

theorem unit_grid_range_boundary_checked :
    ((postUnit, (10 : Int) * 10) ∈ nearbyUnits [postUnit] 10 0 10 ["DefensePost"] (fun _ => true)) ∧
    hasUnitNearby [postUnit] 10 0 10 "DefensePost" "test_id" = true ∧
    ((postUnit, (100 : Int)) ∉ nearbyUnits [postUnit] 10 0 9 ["DefensePost"] (fun _ => true)) ∧
    hasUnitNearby [postUnit] 10 0 9 "DefensePost" "test_id" = false := by
  have h := unit_grid_range_boundary [postUnit] postUnit 10 0 10 ["DefensePost"]
    (by simp) rfl (by decide) (by decide) (by decide)
  exact ⟨h.1, h.2.1, h.2.2.1 9 (by decide) (by decide) 100, h.2.2.2.1 9 (by decide) (by decide)⟩

/-- C5 counterexample: a unit deactivated by the delta of tick N is not
enumerable through GameView.units() during tick N, because units()
filters on isActive; here the deactivated unit 7 is absent from the
enumeration already in the tick of its deactivation, even though its
mirror object is still retained with isActive false, refuting the claim
that it remains enumerable for the rest of tick N. The mirror is deleted
by the next update. -/
theorem grace_window_enumeration_refuted :
    unitsEnum gvTickB = [] ∧
    lookupAssoc gvTickB.unitViews 7
      = some { data := uuInactive7, lastPos := [3, 3], wasUpdated := true } ∧
    uuInactive7.isActive = false ∧
    lookupAssoc gvTickC.unitViews 7 = none :=
  ⟨rfl, rfl, rfl, rfl⟩

/-- C5 amended: a unit marked inactive by the delta applied at tick N is
removed from the spatial unit index immediately during that update, and
its mirror object is retained in the unit map (retrievable by id, with
isActive false) for the rest of tick N, being deleted only by the
cleanup pass at the start of the next update; however it is excluded
from the units() enumeration immediately during tick N itself, not only
from tick N+1, because units() filters on the activity flag. -/
theorem grace_window_amended (gv : GameViewM) (uu : UnitUpdateM)
    (hInactive : uu.isActive = false) :
    uu.id ∉ (updateView gv ⟨[], [uu]⟩).gridIds ∧
    uu.id ∈ (updateView gv ⟨[], [uu]⟩).toDelete ∧
    (∃ u, lookupAssoc (updateView gv ⟨[], [uu]⟩).unitViews uu.id = some u ∧
      u.data.isActive = false ∧ u ∉ unitsEnum (updateView gv ⟨[], [uu]⟩)) ∧
    (∀ gu2 : GameUpdateM, (∀ v ∈ gu2.unitUpdates, v.id ≠ uu.id) →
      lookupAssoc (updateView (updateView gv ⟨[], [uu]⟩) gu2).unitViews uu.id = none) := by
  have hstep : updateView gv ⟨[], [uu]⟩ = applyUnitUpdate (trimPass (cleanupPass gv)) uu := rfl
  obtain ⟨u1, hu1data, hUV⟩ : ∃ u1 : UnitViewM, u1.data = uu ∧
      (applyUnitUpdate (trimPass (cleanupPass gv)) uu).unitViews
        = setAssoc (trimPass (cleanupPass gv)).unitViews uu.id u1 := by
    cases hf : lookupAssoc (trimPass (cleanupPass gv)).unitViews uu.id with
    | some u0 =>
      refine ⟨{ data := uu, lastPos := u0.lastPos ++ [uu.pos], wasUpdated := true }, rfl, ?_⟩
      unfold applyUnitUpdate
      rw [hf]
      simp [hInactive]
    | none =>
      refine ⟨{ data := uu, lastPos := [uu.pos], wasUpdated := true }, rfl, ?_⟩
      unfold applyUnitUpdate
      rw [hf]
      simp [hInactive]
  have hGR : uu.id ∉ (applyUnitUpdate (trimPass (cleanupPass gv)) uu).gridIds := by
    cases hf : lookupAssoc (trimPass (cleanupPass gv)).unitViews uu.id with
    | some u0 =>
      have hg : (applyUnitUpdate (trimPass (cleanupPass gv)) uu).gridIds
          = gridRemove (trimPass (cleanupPass gv)).gridIds uu.id := by
        unfold applyUnitUpdate
        rw [hf]
        simp [hInactive]
      rw [hg]
      exact not_mem_gridRemove _ _
    | none =>
      have hg : (applyUnitUpdate (trimPass (cleanupPass gv)) uu).gridIds
          = gridRemove (gridAdd (trimPass (cleanupPass gv)).gridIds uu.id) uu.id := by
        unfold applyUnitUpdate
        rw [hf]
        simp [hInactive]
      rw [hg]
      exact not_mem_gridRemove _ _
  have hTD : (applyUnitUpdate (trimPass (cleanupPass gv)) uu).toDelete
      = addToDelete (trimPass (cleanupPass gv)).toDelete uu.id := by
    cases hf : lookupAssoc (trimPass (cleanupPass gv)).unitViews uu.id with
    | some u0 =>
      unfold applyUnitUpdate
      rw [hf]
      simp [hInactive]
    | none =>
      unfold applyUnitUpdate
      rw [hf]
      simp [hInactive]
  rw [hstep]
  refine ⟨hGR, ?_, ⟨u1, ?_, ?_, ?_⟩, ?_⟩
  · rw [hTD]
    exact mem_addToDelete _ _
  · rw [hUV]
    exact lookupAssoc_setAssoc_self _ _ _
  · rw [hu1data, hInactive]
  · exact inactive_not_in_unitsEnum _ _ (by rw [hu1data, hInactive])
  · intro gu2 hids
    unfold updateView
    apply unitsFold_lookup_none _ _ _ hids
    rw [trimPass_unitViews]
    apply lookupAssoc_mapSnd_none
    rw [playersFold_unitViews, cleanupPass_unitViews]
    apply lookupAssoc_filter_del
    rw [hTD]
    exact mem_addToDelete _ _

theorem grace_window_amended_checked :
    7 ∉ gvTickB.gridIds ∧ 7 ∈ gvTickB.toDelete ∧
    (∃ u, lookupAssoc gvTickB.unitViews 7 = some u ∧
      u.data.isActive = false ∧ u ∉ unitsEnum gvTickB) :=
  let h := grace_window_amended gvTickA uuInactive7 rfl
  ⟨h.1, h.2.1, h.2.2.1⟩

theorem foldl_pickBetter_mem :
    ∀ (l : List Munition) (acc : Option Munition) (m : Munition),
      l.foldl pickBetter acc = some m → m ∈ l ∨ acc = some m := by
  intro l
  induction l with
  | nil => intro acc m h; exact Or.inr h
  | cons x xs ih =>
    intro acc m h
    simp only [List.foldl_cons] at h
    rcases ih (pickBetter acc x) m h with hmem | hacc
    · exact Or.inl (List.mem_cons_of_mem _ hmem)
    · cases acc with
      | none =>
        simp only [pickBetter, Option.some.injEq] at hacc
        subst hacc
        exact Or.inl (List.mem_cons_self _ _)
      | some b =>
        simp only [pickBetter] at hacc
        by_cases hc : closerThreat x b = true
        · rw [if_pos hc] at hacc
          simp only [Option.some.injEq] at hacc
          subst hacc
          exact Or.inl (List.mem_cons_self _ _)
        · rw [if_neg hc] at hacc
          exact Or.inr hacc

theorem pickTarget_some (s : Sam) (ms : List Munition) (claimed : List Nat) (m : Munition)
    (h : pickTarget s ms claimed = some m) :
    m ∈ ms ∧ eligibleTarget s m = true ∧ m.id ∉ claimed := by
  unfold pickTarget at h
  rcases foldl_pickBetter_mem _ none m h with hmem | hacc
  · have h1 := List.mem_filter.mp hmem
    have h2 := h1.2
    simp only [Bool.and_eq_true, decide_eq_true_eq] at h2
    exact ⟨h1.1, h2.1, h2.2⟩
  · simp at hacc

theorem samResolve_nil (cfg : Nat) (ms : List Munition) (cs : List (Nat × Nat)) :
    samResolve cfg [] ms cs = ([], ms, cs) := rfl

theorem samResolve_cons_idle_some (cfg : Nat) (s : Sam) (rest : List Sam)
    (ms : List Munition) (cs : List (Nat × Nat)) (m : Munition)
    (hs : s.state = SamState.idle) (hp : pickTarget s ms (cs.map Prod.snd) = some m) :
    samResolve cfg (s :: rest) ms cs
      = ({ s with state := SamState.cooldown cfg }
          :: (samResolve cfg rest (destroyMunition ms m.id) (cs ++ [(s.id, m.id)])).1,
         (samResolve cfg rest (destroyMunition ms m.id) (cs ++ [(s.id, m.id)])).2.1,
         (samResolve cfg rest (destroyMunition ms m.id) (cs ++ [(s.id, m.id)])).2.2) := by
  simp only [samResolve, hs, hp]

theorem samResolve_cons_idle_none (cfg : Nat) (s : Sam) (rest : List Sam)
    (ms : List Munition) (cs : List (Nat × Nat))
    (hs : s.state = SamState.idle) (hp : pickTarget s ms (cs.map Prod.snd) = none) :
    samResolve cfg (s :: rest) ms cs
      = (s :: (samResolve cfg rest ms cs).1, (samResolve cfg rest ms cs).2.1,
         (samResolve cfg rest ms cs).2.2) := by
  simp only [samResolve, hs, hp]

theorem samResolve_cons_cooldown (cfg : Nat) (s : Sam) (rest : List Sam)
    (ms : List Munition) (cs : List (Nat × Nat)) (n : Nat)
    (hs : s.state = SamState.cooldown n) :
    samResolve cfg (s :: rest) ms cs
      = ({ s with state := if n ≤ 1 then SamState.idle else SamState.cooldown (n - 1) }
          :: (samResolve cfg rest ms cs).1,
         (samResolve cfg rest ms cs).2.1, (samResolve cfg rest ms cs).2.2) := by
  simp only [samResolve, hs]

theorem samResolve_extends (cfg : Nat) :
    ∀ (sams : List Sam) (ms : List Munition) (cs : List (Nat × Nat)),
      ∃ ext, (samResolve cfg sams ms cs).2.2 = cs ++ ext ∧
        List.Sublist (ext.map Prod.fst) (sams.map Sam.id) ∧
        ((cs.map Prod.snd).Nodup → ((cs ++ ext).map Prod.snd).Nodup) := by
  intro sams
  induction sams with
  | nil =>
    intro ms cs
    exact ⟨[], by simp [samResolve_nil], by simp, fun h => by simpa⟩
  | cons s rest ih =>
    intro ms cs
    cases hs : s.state with
    | idle =>
      cases hp : pickTarget s ms (cs.map Prod.snd) with
      | some m =>
        obtain ⟨ext, he, hsub, hnd⟩ := ih (destroyMunition ms m.id) (cs ++ [(s.id, m.id)])
        refine ⟨(s.id, m.id) :: ext, ?_, ?_, ?_⟩
        · rw [samResolve_cons_idle_some cfg s rest ms cs m hs hp]
          show (samResolve cfg rest (destroyMunition ms m.id) (cs ++ [(s.id, m.id)])).2.2
              = cs ++ ((s.id, m.id) :: ext)
          rw [he]
          simp
        · simp only [List.map_cons]
          exact List.Sublist.cons₂ _ hsub
        · intro hcs
          have hnot : m.id ∉ cs.map Prod.snd := (pickTarget_some s ms _ m hp).2.2
          have h1 : ((cs ++ [(s.id, m.id)]).map Prod.snd).Nodup := by
            rw [List.map_append]
            apply List.Nodup.append hcs (List.nodup_singleton _)
            intro a ha hb
            simp only [List.map_cons, List.map_nil, List.mem_singleton] at hb
            subst hb
            exact hnot ha
          have h2 := hnd h1
          have h3 : cs ++ ((s.id, m.id) :: ext) = (cs ++ [(s.id, m.id)]) ++ ext := by simp
          rw [h3]
          exact h2
      | none =>
        obtain ⟨ext, he, hsub, hnd⟩ := ih ms cs
        refine ⟨ext, ?_, ?_, hnd⟩
        · rw [samResolve_cons_idle_none cfg s rest ms cs hs hp]
          exact he
        · simp only [List.map_cons]
          exact List.Sublist.cons _ hsub
    | cooldown n =>
      obtain ⟨ext, he, hsub, hnd⟩ := ih ms cs
      refine ⟨ext, ?_, ?_, hnd⟩
      · rw [samResolve_cons_cooldown cfg s rest ms cs n hs]
        exact he
      · simp only [List.map_cons]
        exact List.Sublist.cons _ hsub

/-- C1: within one tick of the engagement resolver, the commitments are
injective in both directions: no interceptor commits twice and no
munition is claimed by two interceptors system-wide; and when two idle
interceptors both see the same eligible munition, exactly the first in
evaluation order commits and enters cooldown while the second skips the
already claimed target and stays idle. -/
theorem sam_at_most_one_target (cfg : Nat) :
    (∀ (sams : List Sam) (ms : List Munition), (sams.map Sam.id).Nodup →
        ((samResolve cfg sams ms []).2.2.map Prod.fst).Nodup ∧
        ((samResolve cfg sams ms []).2.2.map Prod.snd).Nodup) ∧
    (∀ (s1 s2 : Sam) (m : Munition), s1.state = SamState.idle → s2.state = SamState.idle →
        eligibleTarget s1 m = true → eligibleTarget s2 m = true →
        (samResolve cfg [s1, s2] [m] []).2.2 = [(s1.id, m.id)] ∧
        (samResolve cfg [s1, s2] [m] []).1
          = [{ s1 with state := SamState.cooldown cfg }, s2]) := by
  constructor
  · intro sams ms hnodup
    obtain ⟨ext, he, hsub, hnd⟩ := samResolve_extends cfg sams ms []
    constructor
    · rw [he]
      simp only [List.nil_append]
      exact List.Nodup.sublist hsub hnodup
    · rw [he]
      exact hnd (by simp)
  · intro s1 s2 m h1 h2 he1 he2
    have hp1 : pickTarget s1 [m] (List.map Prod.snd ([] : List (Nat × Nat))) = some m := by
      simp [pickTarget, he1, pickBetter]
    have hd : destroyMunition [m] m.id = [{ m with active := false }] := by
      simp [destroyMunition]
    have hp2 : pickTarget s2 [{ m with active := false }]
        (List.map Prod.snd ([] ++ [(s1.id, m.id)])) = none := by
      simp [pickTarget, eligibleTarget]
    have step2 : samResolve cfg [s2] [{ m with active := false }] ([] ++ [(s1.id, m.id)])
        = ([s2], [{ m with active := false }], [(s1.id, m.id)]) := by
      rw [samResolve_cons_idle_none cfg s2 [] [{ m with active := false }]
        ([] ++ [(s1.id, m.id)]) h2 hp2]
      rfl
    have step1 : samResolve cfg [s1, s2] [m] []
        = ({ s1 with state := SamState.cooldown cfg } :: ([s2] : List Sam),
           [{ m with active := false }], [(s1.id, m.id)]) := by
      rw [samResolve_cons_idle_some cfg s1 [s2] [m] [] m h1 hp1]
      rw [hd, step2]
    constructor
    · rw [step1]
    · rw [step1]

theorem sam_at_most_one_target_checked :
    ((samResolve 7 [samA, samB] [nukeA] []).2.2.map Prod.fst).Nodup ∧
    ((samResolve 7 [samA, samB] [nukeA] []).2.2.map Prod.snd).Nodup ∧
    (samResolve 7 [samA, samB] [nukeA] []).2.2 = [(samA.id, nukeA.id)] ∧
    (samResolve 7 [samA, samB] [nukeA] []).1
      = [{ samA with state := SamState.cooldown 7 }, samB] := by
  have h1 := (sam_at_most_one_target 7).1 [samA, samB] [nukeA] (by decide)
  have h2 := (sam_at_most_one_target 7).2 samA samB nukeA rfl rfl (by decide) (by decide)
  exact ⟨h1.1, h1.2, h2.1, h2.2⟩

theorem sam_idle_run (cfg : Nat) (s : Sam) (hidle : s.state = SamState.idle) :
    ∀ (k : Nat) (m : Munition), pathReachable s m = false →
      ∃ m' : Munition, runTicks cfg k ([s], [m]) = ([s], [m']) ∧ pathReachable s m' = false := by
  intro k
  induction k with
  | zero => intro m hm; exact ⟨m, rfl, hm⟩
  | succ k ih =>
    intro m hm
    have helig : eligibleTarget s m = false := by
      unfold eligibleTarget
      rw [hm]
      simp
    have hpick : pickTarget s [m] (List.map Prod.snd ([] : List (Nat × Nat))) = none := by
      simp [pickTarget, helig]
    have hres : samResolve cfg [s] [m] [] = ([s], [m], []) := by
      rw [samResolve_cons_idle_none cfg s [] [m] [] hidle hpick]
      rfl
    have hgt : gameTick cfg [s] [m] = ([s], [advanceMunition m], []) := by
      unfold gameTick
      rw [hres]
      rfl
    have hm' : pathReachable s (advanceMunition m) = false := by
      unfold advanceMunition
      by_cases ha : m.active = true
      · simp only [ha, Bool.not_true, Bool.false_eq_true, if_false]
        cases hfp : m.futurePath with
        | nil => simp [pathReachable, hfp]
        | cons t rest =>
          simp only [pathReachable, hfp, List.any_cons, Bool.or_eq_false_iff] at hm
          simp [pathReachable, hm.2]
      · have ha' : m.active = false := by simpa using ha
        simp only [ha', Bool.not_false, if_true]
        exact hm
    obtain ⟨m2, hrun, hm2⟩ := ih (advanceMunition m) hm'
    refine ⟨m2, ?_, hm2⟩
    show runTicks cfg k ((gameTick cfg [s] [m]).1, (gameTick cfg [s] [m]).2.1) = ([s], [m2])
    rw [hgt]
    exact hrun

/-- C2: an interceptor whose engagement radius is never passed by the
remaining flight path of the munition never commits and never leaves the
Idle state (never reports cooldown), even if the munition is currently
inside the radius; while an idle interceptor for which the munition is
eligible (active, hostile, in range, and with the remaining path passing
through the radius) does engage, entering cooldown with the commitment
recorded. -/
theorem sam_reachability_gating (cfg : Nat) (s : Sam) (m : Munition)
    (hidle : s.state = SamState.idle) :
    (pathReachable s m = false →
      ∀ k : Nat, (runTicks cfg k ([s], [m])).1 = [s] ∧
        (runTicks cfg k ([s], [m])).1.map isInCooldown = [false]) ∧
    (eligibleTarget s m = true →
      (gameTick cfg [s] [m]).1 = [{ s with state := SamState.cooldown cfg }] ∧
      (gameTick cfg [s] [m]).2.2 = [(s.id, m.id)]) := by
  constructor
  · intro hpath k
    obtain ⟨m', hrun, _⟩ := sam_idle_run cfg s hidle k m hpath
    rw [hrun]
    exact ⟨rfl, by simp [isInCooldown, hidle]⟩
  · intro helig
    have hp1 : pickTarget s [m] (List.map Prod.snd ([] : List (Nat × Nat))) = some m := by
      simp [pickTarget, helig, pickBetter]
    have hres : samResolve cfg [s] [m] []
        = ([{ s with state := SamState.cooldown cfg }],
           [{ m with active := false }], [(s.id, m.id)]) := by
      rw [samResolve_cons_idle_some cfg s [] [m] [] m hidle hp1]
      simp [destroyMunition, samResolve_nil]
    constructor
    · unfold gameTick
      rw [hres]
    · unfold gameTick
      rw [hres]

theorem sam_reachability_gating_checked :
    ((runTicks 7 3 ([samFar], [nukeA])).1 = [samFar] ∧
      (runTicks 7 3 ([samFar], [nukeA])).1.map isInCooldown = [false]) ∧
    ((gameTick 7 [samA] [nukeA]).1 = [{ samA with state := SamState.cooldown 7 }] ∧
      (gameTick 7 [samA] [nukeA]).2.2 = [(samA.id, nukeA.id)]) :=
  ⟨(sam_reachability_gating 7 samFar nukeA rfl).1 (by decide) 3,
   (sam_reachability_gating 7 samA nukeA rfl).2 (by decide)⟩

theorem runTicks_idle_empty (cfg : Nat) (s : Sam) (hidle : s.state = SamState.idle) :
    ∀ k : Nat, runTicks cfg k ([s], ([] : List Munition)) = ([s], []) := by
  intro k
  induction k with
  | zero => rfl
  | succ k ih =>
    have hres : samResolve cfg [s] [] [] = ([s], [], []) := by
      rw [samResolve_cons_idle_none cfg s [] [] [] hidle (by simp [pickTarget])]
      rfl
    have hgt : gameTick cfg [s] ([] : List Munition) = ([s], [], []) := by
      unfold gameTick
      rw [hres]
      rfl
    show runTicks cfg k ((gameTick cfg [s] []).1, (gameTick cfg [s] []).2.1) = ([s], [])
    rw [hgt]
    exact ih

theorem samResolve_single_cooldown (cfg : Nat) (s : Sam) (n : Nat) (ms : List Munition)
    (hs : s.state = SamState.cooldown n) :
    samResolve cfg [s] ms []
      = ([{ s with state := if n ≤ 1 then SamState.idle else SamState.cooldown (n - 1) }],
         ms, []) := by
  rw [samResolve_cons_cooldown cfg s [] ms [] n hs]
  rfl

theorem gameTick_cooldown (cfg : Nat) (s : Sam) (n : Nat) :
    gameTick cfg [{ s with state := SamState.cooldown n }] ([] : List Munition)
      = ([{ s with state := if n ≤ 1 then SamState.idle else SamState.cooldown (n - 1) }],
         [], []) := by
  unfold gameTick
  rw [samResolve_single_cooldown cfg { s with state := SamState.cooldown n } n [] rfl]
  rfl

theorem runTicks_cooldown (cfg : Nat) (s : Sam) :
    ∀ (j n : Nat), 1 ≤ n →
      runTicks cfg j ([{ s with state := SamState.cooldown n }], ([] : List Munition))
        = ([{ s with state := if j < n then SamState.cooldown (n - j) else SamState.idle }],
           []) := by
  intro j
  induction j with
  | zero =>
    intro n hn
    rw [if_pos (Nat.lt_of_lt_of_le Nat.zero_lt_one hn), Nat.sub_zero]
    rfl
  | succ j ih =>
    intro n hn
    show runTicks cfg j ((gameTick cfg [{ s with state := SamState.cooldown n }] []).1,
          (gameTick cfg [{ s with state := SamState.cooldown n }] []).2.1)
        = ([{ s with state := if j + 1 < n then SamState.cooldown (n - (j + 1))
              else SamState.idle }], [])
    rw [gameTick_cooldown]
    by_cases h1 : n ≤ 1
    · rw [if_pos h1]
      have hn1 : n = 1 := le_antisymm h1 hn
      subst hn1
      rw [runTicks_idle_empty cfg _ rfl j, if_neg (by omega)]
    · rw [if_neg h1]
      rw [ih (n - 1) (by omega)]
      by_cases h2 : j + 1 < n
      · rw [if_pos (by omega : j < n - 1), if_pos h2]
        have : n - 1 - j = n - (j + 1) := by omega
        rw [this]
      · rw [if_neg (by omega : ¬ j < n - 1), if_neg h2]

/-- C3: an interceptor that resolved an engagement reports cooldown for
exactly the configured number of ticks, its timer decrementing each
tick, and reports not in cooldown afterwards; while cooling down it
makes no commitment and acquires no target regardless of the munitions
present. -/
theorem sam_cooldown_enforcement (cfg : Nat) (s : Sam) (hcfg : 1 ≤ cfg) :
    (∀ j : Nat, j < cfg →
      (runTicks cfg j ([{ s with state := SamState.cooldown cfg }], [])).1
          = [{ s with state := SamState.cooldown (cfg - j) }] ∧
      (runTicks cfg j ([{ s with state := SamState.cooldown cfg }], [])).1.map isInCooldown
          = [true]) ∧
    ((runTicks cfg cfg ([{ s with state := SamState.cooldown cfg }], [])).1
        = [{ s with state := SamState.idle }] ∧
      (runTicks cfg cfg ([{ s with state := SamState.cooldown cfg }], [])).1.map isInCooldown
        = [false]) ∧
    (∀ (n : Nat) (ms : List Munition), 1 ≤ n → s.state = SamState.cooldown n →
      (samResolve cfg [s] ms []).2.2 = [] ∧
      (samResolve cfg [s] ms []).1
        = [{ s with state := if n ≤ 1 then SamState.idle else SamState.cooldown (n - 1) }]) := by
  refine ⟨?_, ?_, ?_⟩
  · intro j hj
    rw [runTicks_cooldown cfg s j cfg hcfg, if_pos hj]
    exact ⟨rfl, by simp [isInCooldown]⟩
  · rw [runTicks_cooldown cfg s cfg cfg hcfg, if_neg (lt_irrefl cfg)]
    exact ⟨rfl, by simp [isInCooldown]⟩
  · intro n ms hn hs
    rw [samResolve_single_cooldown cfg s n ms hs]
    exact ⟨rfl, rfl⟩

theorem sam_cooldown_enforcement_checked :
    (runTicks 3 2 ([{ samA with state := SamState.cooldown 3 }], [])).1
        = [{ samA with state := SamState.cooldown 1 }] ∧
    (runTicks 3 3 ([{ samA with state := SamState.cooldown 3 }], [])).1
        = [{ samA with state := SamState.idle }] ∧
    (samResolve 3 [{ samA with state := SamState.cooldown 2 }] [nukeA] []).2.2 = [] := by
  refine ⟨?_, ?_, ?_⟩
  · exact ((sam_cooldown_enforcement 3 samA (by decide)).1 2 (by decide)).1
  · exact (sam_cooldown_enforcement 3 samA (by decide)).2.1.1
  · exact ((sam_cooldown_enforcement 3 { samA with state := SamState.cooldown 2 }
      (by decide)).2.2 2 [nukeA] (by decide) rfl).1
